import Mathlib

/-
Verification of the relay program `tools/io_relay.py` (Elkulator I/O port
relay).  Bytes are modelled as natural numbers; byte strings as `List Nat`.
The program's pure line-ending conversion functions are embedded directly;
the `session` poll loop is embedded as a state machine folded over the
sequence of poll wakeups, where each wakeup is the list of
(file-descriptor, status) pairs returned by `poller.poll()`.
-/

namespace IORelay

/-- A byte, as a natural number. -/
abbrev Byte := Nat

/-- `EMPTY = b""` in the source. -/
def EMPTY : List Byte := []

/-- `CR = b"\r"` in the source. -/
def CR : List Byte := [13]

/-- `LF = b"\n"` in the source. -/
def LF : List Byte := [10]

/-- Embedding of Python `s.replace(p, r)` for a single-byte pattern `p`:
every occurrence of the byte `p` in `s` is replaced by the byte string `r`
(single-byte occurrences are trivially non-overlapping, so the general
left-to-right replacement coincides with this pointwise form). -/
def bytesReplace (p : Byte) (r : List Byte) : List Byte → List Byte
  | [] => []
  | x :: xs => (if x = p then r else [x]) ++ bytesReplace p r xs

/-- `cr_to_lf(s) = s.replace(LF, EMPTY).replace(CR, LF)` from the source. -/
def cr_to_lf (s : List Byte) : List Byte :=
  bytesReplace 13 LF (bytesReplace 10 EMPTY s)

/-- `lf_to_cr(s) = s.replace(CR, EMPTY).replace(LF, CR)` from the source. -/
def lf_to_cr (s : List Byte) : List Byte :=
  bytesReplace 10 CR (bytesReplace 13 EMPTY s)

/-- `null(s) = s` from the source: the identity conversion. -/
def null (s : List Byte) : List Byte := s

/-- The spec's description of the `toLineFeed` transcoder, written from the
spec's words: delete every line-feed byte (0x0A), then map every
carriage-return byte (0x0D) to a line-feed byte. -/
def toLineFeedSpec (s : List Byte) : List Byte :=
  (s.filter (fun x => x ≠ 10)).map (fun x => if x = 13 then 10 else x)

/-- The spec's description of the `toCarriageReturn` transcoder, written from
the spec's words: delete every carriage-return byte (0x0D), then map every
line-feed byte (0x0A) to a carriage-return byte (0x0D). -/
def toCarriageReturnSpec (s : List Byte) : List Byte :=
  (s.filter (fun x => x ≠ 13)).map (fun x => if x = 10 then 13 else x)

/-- `select.POLLIN` (Linux value). -/
def POLLIN : Nat := 1

/-- `select.POLLERR` (Linux value). -/
def POLLERR : Nat := 8

/-- `select.POLLHUP` (Linux value). -/
def POLLHUP : Nat := 16

/-- `select.POLLNVAL` (Linux value). -/
def POLLNVAL : Nat := 32

/-- The mask `select.POLLHUP | select.POLLNVAL | select.POLLERR` tested first
in the `session` loop. -/
def HUPERR : Nat := POLLHUP ||| POLLNVAL ||| POLLERR

/-- Which of the two registered channels a descriptor resolves to. -/
inductive Side
  | loc
  | rem
deriving DecidableEq

/-- The static data of a console/telnet session as `main` builds it: the two
channels' reader descriptors, each channel's converter (applied by
`Channel.write`, i.e. when writing TO that channel's output endpoint), and
whether each output endpoint has a `flush` attribute. -/
structure RelayConfig where
  localFd : Nat
  remoteFd : Nat
  localConv : List Byte → List Byte
  remoteConv : List Byte → List Byte
  localHasFlush : Bool
  remoteHasFlush : Bool

/-- The mutable state of a session: the bytes still pending on each channel's
reader (`os.read` consumes them one at a time, returning `b""` when none are
left), the bytes written so far to each channel's output endpoint
(post-conversion), how often each output was flushed, and whether the
`session` function has returned. -/
structure RelayState where
  localIn : List Byte
  remoteIn : List Byte
  localOut : List Byte
  remoteOut : List Byte
  localFlushes : Nat
  remoteFlushes : Nat
  terminated : Bool
deriving DecidableEq

/-- `os.read(fd, 1)`: the first pending byte (or `b""` at end of stream),
paired with the remaining pending bytes. -/
def readOne (l : List Byte) : List Byte × List Byte :=
  match l with
  | [] => ([], [])
  | x :: xs => ([x], xs)

/-- `channel_map[fd]`, giving the reader side.  The dict is filled in the
order `channels = [(local, remote), (remote, local)]`, so on a duplicate key
the remote entry wins; an unregistered descriptor has no entry. -/
def lookupReader (cfg : RelayConfig) (fd : Nat) : Option Side :=
  if fd = cfg.remoteFd then some Side.rem
  else if fd = cfg.localFd then some Side.loc
  else none

/-- `Channel.write` on the local channel: append `localConv s` to the local
output endpoint and flush it when it supports flushing. -/
def writeLocal (cfg : RelayConfig) (st : RelayState) (s : List Byte) : RelayState :=
  { st with
    localOut := st.localOut ++ cfg.localConv s,
    localFlushes := if cfg.localHasFlush then st.localFlushes + 1 else st.localFlushes }

/-- `Channel.write` on the remote channel: append `remoteConv s` to the
remote output endpoint and flush it when it supports flushing. -/
def writeRemote (cfg : RelayConfig) (st : RelayState) (s : List Byte) : RelayState :=
  { st with
    remoteOut := st.remoteOut ++ cfg.remoteConv s,
    remoteFlushes := if cfg.remoteHasFlush then st.remoteFlushes + 1 else st.remoteFlushes }

/-- The body of the inner `for fd, status in fds` loop of `session` on one
event.  A `return` is modelled by the `terminated` flag: once set, every
remaining event (of this wakeup and of all later wakeups) leaves the state
unchanged, matching the function having exited. -/
def handleEvent (cfg : RelayConfig) (st : RelayState) (ev : Nat × Nat) : RelayState :=
  if st.terminated then st
  else if ev.2 &&& HUPERR ≠ 0 then { st with terminated := true }
  else if ev.2 &&& POLLIN ≠ 0 then
    match lookupReader cfg ev.1 with
    | some Side.loc => writeRemote cfg { st with localIn := (readOne st.localIn).2 } (readOne st.localIn).1
    | some Side.rem => writeLocal cfg { st with remoteIn := (readOne st.remoteIn).2 } (readOne st.remoteIn).1
    | none => st
  else st

/-- One iteration of the outer `while 1` loop of `session`: process, in
order, the events of one `poller.poll()` wakeup. -/
def handleWakeup (cfg : RelayConfig) (st : RelayState) (evs : List (Nat × Nat)) : RelayState :=
  evs.foldl (handleEvent cfg) st

/-- The `session` function run over a finite trace of poll wakeups. -/
def sessionRun (cfg : RelayConfig) (st : RelayState) (wakeups : List (List (Nat × Nat))) : RelayState :=
  wakeups.foldl (handleWakeup cfg) st

/-- The console-mode configuration built by `main`:
`remote = Channel(stdin, stdout, cr_to_lf)` (descriptor 0, `stdout.buffer`
has `flush`) and `local = Channel(reader, writer, lf_to_cr)` (the accepted
socket's file objects, which have `flush`; descriptor 4 stands for the
accepted socket, distinct from 0). -/
def consoleConfig : RelayConfig :=
  { localFd := 4
    remoteFd := 0
    localConv := lf_to_cr
    remoteConv := cr_to_lf
    localHasFlush := true
    remoteHasFlush := true }

/-- Initial state of the spec's console-mode scenario: `"AT\r\n"` pending on
the remote reader (standard input) and `"OK\n"` pending on the local reader
(the accepted socket). -/
def consoleScenarioState : RelayState :=
  { localIn := [79, 75, 10]
    remoteIn := [65, 84, 13, 10]
    localOut := []
    remoteOut := []
    localFlushes := 0
    remoteFlushes := 0
    terminated := false }

/-- A poll trace delivering the scenario's bytes: four read-readiness events
on standard input (descriptor 0), then three on the socket (descriptor 4). -/
def consoleScenarioEvents : List (Nat × Nat) :=
  [(0, POLLIN), (0, POLLIN), (0, POLLIN), (0, POLLIN),
   (4, POLLIN), (4, POLLIN), (4, POLLIN)]

/-- The scenario state with the local reader already drained: `os.read` on
the socket now returns zero bytes. -/
def emptyLocalState : RelayState :=
  { consoleScenarioState with localIn := [] }

/-- The first `n` single-byte reads drawn from a pending stream `l`:
`readChunks l n` is the list of byte strings returned by `n` successive
`os.read(fd, 1)` calls. -/
def readChunks : List Byte → Nat → List (List Byte)
  | _, 0 => []
  | l, Nat.succ n => (readOne l).1 :: readChunks (readOne l).2 n

/-- How many events of a trace route a read to the local channel's reader:
those naming the local descriptor with `POLLIN` set (assuming the trace is
free of hang-up/error statuses and the descriptors are disjoint). -/
def routedLoc (cfg : RelayConfig) (evs : List (Nat × Nat)) : Nat :=
  (evs.filter (fun e => decide (e.1 = cfg.localFd) && decide (e.2 &&& POLLIN ≠ 0))).length

/-- How many events of a trace route a read to the remote channel's reader. -/
def routedRem (cfg : RelayConfig) (evs : List (Nat × Nat)) : Nat :=
  (evs.filter (fun e => decide (e.1 = cfg.remoteFd) && decide (e.2 &&& POLLIN ≠ 0))).length

/-- A well-formed line for the round-trip property: payload bytes followed by
a carriage return, optionally followed by a line feed. -/
structure Line where
  content : List Byte
  hasLF : Bool

/-- The byte string of a well-formed line as transmitted. -/
def Line.bytes (l : Line) : List Byte :=
  l.content ++ [13] ++ (if l.hasLF then [10] else [])

/-- The same line in pure carriage-return-terminated form. -/
def Line.crBytes (l : Line) : List Byte :=
  l.content ++ [13]

/-- A line's payload is plain: free of carriage returns and line feeds. -/
def Line.plain (l : Line) : Prop :=
  ∀ x ∈ l.content, x ≠ 10 ∧ x ≠ 13

end IORelay

namespace IORelay

theorem bytesReplace_empty (a : Byte) (s : List Byte) :
    bytesReplace a EMPTY s = s.filter (fun x => x ≠ a) := by
  induction s with
  | nil => rfl
  | cons x xs ih =>
      simp only [EMPTY] at ih ⊢
      by_cases h : x = a <;>
        simp [bytesReplace, List.filter_cons, h, ih]

theorem bytesReplace_single (a b : Byte) (s : List Byte) :
    bytesReplace a [b] s = s.map (fun x => if x = a then b else x) := by
  induction s with
  | nil => rfl
  | cons x xs ih =>
      by_cases h : x = a <;> simp [bytesReplace, h, ih]

theorem cr_to_lf_eq (s : List Byte) :
    cr_to_lf s =
      (s.filter (fun x => x ≠ 10)).map (fun x => if x = 13 then 10 else x) := by
  rw [cr_to_lf, show LF = [10] from rfl, bytesReplace_empty, bytesReplace_single]

theorem lf_to_cr_eq (s : List Byte) :
    lf_to_cr s =
      (s.filter (fun x => x ≠ 13)).map (fun x => if x = 10 then 13 else x) := by
  rw [lf_to_cr, show CR = [13] from rfl, bytesReplace_empty, bytesReplace_single]

/-- C1: for every byte sequence `s` (including the empty one), `cr_to_lf`
returns `s` with every line-feed byte (0x0A) removed and then every
carriage-return byte (0x0D) replaced by a line-feed byte, as a total pure
function. -/
theorem cr_to_lf_matches_spec (s : List Byte) : cr_to_lf s = toLineFeedSpec s := by
  rw [cr_to_lf_eq]; rfl

/-- C2: for every byte sequence `s` (including the empty one), `lf_to_cr`
returns `s` with every carriage-return byte (0x0D) removed and then every
line-feed byte (0x0A) replaced by a carriage-return byte, as a total pure
function. -/
theorem lf_to_cr_matches_spec (s : List Byte) : lf_to_cr s = toCarriageReturnSpec s := by
  rw [lf_to_cr_eq]; rfl

/-- C7: both transcoders are the identity on non-empty byte sequences free of
line feeds and carriage returns. -/
theorem plain_passthrough (s : List Byte) (_hne : s ≠ [])
    (h : ∀ x ∈ s, x ≠ 10 ∧ x ≠ 13) :
    cr_to_lf s = s ∧ lf_to_cr s = s := by
  have h10 : s.filter (fun x => x ≠ 10) = s :=
    List.filter_eq_self.mpr (fun x hx => by simp [(h x hx).1])
  have h13 : s.filter (fun x => x ≠ 13) = s :=
    List.filter_eq_self.mpr (fun x hx => by simp [(h x hx).2])
  constructor
  · rw [cr_to_lf_eq, h10]
    calc s.map (fun x => if x = 13 then 10 else x)
        = s.map (fun x => x) := List.map_congr_left (fun x hx => if_neg (h x hx).2)
      _ = s := List.map_id s
  · rw [lf_to_cr_eq, h13]
    calc s.map (fun x => if x = 10 then 13 else x)
        = s.map (fun x => x) := List.map_congr_left (fun x hx => if_neg (h x hx).1)
      _ = s := List.map_id s

/-- C7 witness: the single plain byte 0x41. -/
theorem plain_passthrough_witness :
    cr_to_lf [65] = [65] ∧ lf_to_cr [65] = [65] :=
  plain_passthrough [65] (by decide) (by decide)

theorem conv_cancel (t : List Byte) (h : ∀ x ∈ t, x ≠ 10) :
    ((t.map (fun x => if x = 13 then 10 else x)).filter (fun x => x ≠ 13)).map
      (fun x => if x = 10 then 13 else x) = t := by
  induction t with
  | nil => rfl
  | cons x xs ih =>
      have hx : x ≠ 10 := h x (by simp)
      have htail := ih (fun y hy => h y (by simp [hy]))
      simp only [ne_eq, decide_not] at htail
      by_cases h13 : x = 13 <;>
        simp [List.filter_cons, h13, hx, htail]

theorem roundtrip_filter (s : List Byte) :
    lf_to_cr (cr_to_lf s) = s.filter (fun x => x ≠ 10) := by
  rw [cr_to_lf_eq, lf_to_cr_eq, conv_cancel]
  intro x hx
  simpa using (List.mem_filter.mp hx).2

theorem filter_line (l : Line) (hl : l.plain) :
    (Line.bytes l).filter (fun x => x ≠ 10) = Line.crBytes l := by
  unfold Line.bytes Line.crBytes
  rw [List.filter_append, List.filter_append]
  have hc : l.content.filter (fun x => x ≠ 10) = l.content :=
    List.filter_eq_self.mpr (fun x hx => by simp [(hl x hx).1])
  cases hf : l.hasLF <;> simp [hc] <;> exact fun a ha => (hl a ha).1

/-- C8: on input made of well-formed lines, each a plain payload terminated
by a carriage return optionally followed by a line feed, composing the two
transcoders restores the carriage-return-terminated lines. -/
theorem roundtrip_wellformed (ls : List Line) (h : ∀ l ∈ ls, l.plain) :
    lf_to_cr (cr_to_lf ((ls.map Line.bytes).flatten)) =
      (ls.map Line.crBytes).flatten := by
  rw [roundtrip_filter]
  induction ls with
  | nil => rfl
  | cons l rest ih =>
      have htail := ih (fun y hy => h y (by simp [hy]))
      simp only [List.map_cons, List.flatten_cons, List.filter_append]
      rw [filter_line l (h l (by simp)), htail]

/-- C8 witness: the two lines `"A\r\n"` and `"B\r"` round-trip to
`"A\rB\r"`. -/
theorem roundtrip_wellformed_witness :
    lf_to_cr (cr_to_lf (([⟨[65], true⟩, ⟨[66], false⟩] :
        List Line).map Line.bytes).flatten) =
      (([⟨[65], true⟩, ⟨[66], false⟩] : List Line).map Line.crBytes).flatten :=
  roundtrip_wellformed [⟨[65], true⟩, ⟨[66], false⟩] (by
    intro l hl
    simp only [List.mem_cons, List.not_mem_nil, or_false] at hl
    rcases hl with h | h <;> subst h <;> intro x hx <;> simp at hx <;> simp [hx])

/-- C10: the output of `cr_to_lf` never contains a carriage-return byte and
the output of `lf_to_cr` never contains a line-feed byte, for every input. -/
theorem outputs_normalized (s : List Byte) :
    (cr_to_lf s).count 13 = 0 ∧ (lf_to_cr s).count 10 = 0 := by
  constructor
  · rw [cr_to_lf_eq, List.count_eq_zero]
    intro hmem
    obtain ⟨y, _, hfy⟩ := List.mem_map.mp hmem
    by_cases h : y = 13
    · rw [if_pos h] at hfy
      exact absurd hfy (by decide)
    · rw [if_neg h] at hfy
      exact h hfy
  · rw [lf_to_cr_eq, List.count_eq_zero]
    intro hmem
    obtain ⟨y, _, hfy⟩ := List.mem_map.mp hmem
    by_cases h : y = 10
    · rw [if_pos h] at hfy
      exact absurd hfy (by decide)
    · rw [if_neg h] at hfy
      exact h hfy

theorem readOne_fst (l : List Byte) : (readOne l).1 = l.take 1 := by
  cases l <;> rfl

theorem readOne_snd (l : List Byte) : (readOne l).2 = l.drop 1 := by
  cases l <;> rfl

theorem readChunks_succ (l : List Byte) (n : Nat) :
    readChunks l (n + 1) = (readOne l).1 :: readChunks (readOne l).2 n := rfl

theorem flush_add (f : Bool) (a n : Nat) :
    (if f then a + 1 else a) + (if f then n else 0) = a + (if f then n + 1 else 0) := by
  cases f <;> simp <;> omega

theorem handleWakeup_cons (cfg : RelayConfig) (st : RelayState) (e : Nat × Nat)
    (evs : List (Nat × Nat)) :
    handleWakeup cfg st (e :: evs) = handleWakeup cfg (handleEvent cfg st e) evs := rfl

theorem handleWakeup_append (cfg : RelayConfig) (st : RelayState)
    (l1 l2 : List (Nat × Nat)) :
    handleWakeup cfg st (l1 ++ l2) = handleWakeup cfg (handleWakeup cfg st l1) l2 :=
  List.foldl_append _ _ _ _

theorem sessionRun_cons (cfg : RelayConfig) (st : RelayState)
    (w : List (Nat × Nat)) (ws : List (List (Nat × Nat))) :
    sessionRun cfg st (w :: ws) = sessionRun cfg (handleWakeup cfg st w) ws := rfl

theorem handleEvent_terminated (cfg : RelayConfig) (st : RelayState) (ev : Nat × Nat)
    (h : st.terminated = true) : handleEvent cfg st ev = st := by
  unfold handleEvent
  simp [h]

theorem handleWakeup_terminated (cfg : RelayConfig) (evs : List (Nat × Nat))
    (st : RelayState) (h : st.terminated = true) : handleWakeup cfg st evs = st := by
  induction evs generalizing st with
  | nil => rfl
  | cons e evs ih =>
      rw [handleWakeup_cons, handleEvent_terminated cfg st e h]
      exact ih st h

theorem sessionRun_terminated (cfg : RelayConfig) (ws : List (List (Nat × Nat)))
    (st : RelayState) (h : st.terminated = true) : sessionRun cfg st ws = st := by
  induction ws generalizing st with
  | nil => rfl
  | cons w ws ih =>
      rw [sessionRun_cons, handleWakeup_terminated cfg w st h]
      exact ih st h

theorem handleEvent_keeps_running (cfg : RelayConfig) (st : RelayState) (ev : Nat × Nat)
    (hterm : st.terminated = false) (he : ev.2 &&& HUPERR = 0) :
    (handleEvent cfg st ev).terminated = false := by
  by_cases hin : ev.2 &&& POLLIN = 0
  · have h : handleEvent cfg st ev = st := by
      unfold handleEvent
      simp [hterm, he, hin]
    rw [h]
    exact hterm
  · unfold handleEvent
    simp only [hterm, he, hin]
    rcases hlk : lookupReader cfg ev.1 with _ | side
    · simp [hlk, hterm, hin]
    · cases side <;> simp [hlk, writeLocal, writeRemote, hterm, hin]

theorem routedLoc_cons_skip (cfg : RelayConfig) (e : Nat × Nat) (evs : List (Nat × Nat))
    (h : ¬e.1 = cfg.localFd ∨ e.2 &&& POLLIN = 0) :
    routedLoc cfg (e :: evs) = routedLoc cfg evs := by
  unfold routedLoc
  rcases h with h | h <;> simp [List.filter_cons, h]

theorem routedRem_cons_skip (cfg : RelayConfig) (e : Nat × Nat) (evs : List (Nat × Nat))
    (h : ¬e.1 = cfg.remoteFd ∨ e.2 &&& POLLIN = 0) :
    routedRem cfg (e :: evs) = routedRem cfg evs := by
  unfold routedRem
  rcases h with h | h <;> simp [List.filter_cons, h]

theorem routedLoc_cons_hit (cfg : RelayConfig) (e : Nat × Nat) (evs : List (Nat × Nat))
    (h1 : e.1 = cfg.localFd) (h2 : ¬e.2 &&& POLLIN = 0) :
    routedLoc cfg (e :: evs) = routedLoc cfg evs + 1 := by
  unfold routedLoc
  simp [List.filter_cons, h1, h2]

theorem routedRem_cons_hit (cfg : RelayConfig) (e : Nat × Nat) (evs : List (Nat × Nat))
    (h1 : e.1 = cfg.remoteFd) (h2 : ¬e.2 &&& POLLIN = 0) :
    routedRem cfg (e :: evs) = routedRem cfg evs + 1 := by
  unfold routedRem
  simp [List.filter_cons, h1, h2]

theorem handleWakeup_keeps_running (cfg : RelayConfig) (evs : List (Nat × Nat))
    (st : RelayState) (hterm : st.terminated = false)
    (hfree : ∀ e ∈ evs, e.2 &&& HUPERR = 0) :
    (handleWakeup cfg st evs).terminated = false := by
  induction evs generalizing st with
  | nil => exact hterm
  | cons e evs ih =>
      rw [handleWakeup_cons]
      exact ih (handleEvent cfg st e)
        (handleEvent_keeps_running cfg st e hterm (hfree e (by simp)))
        (fun x hx => hfree x (by simp [hx]))

theorem wakeup_routing (cfg : RelayConfig) (evs : List (Nat × Nat)) (st : RelayState)
    (hdisj : cfg.localFd ≠ cfg.remoteFd) (hterm : st.terminated = false)
    (hfree : ∀ e ∈ evs, e.2 &&& HUPERR = 0) :
    handleWakeup cfg st evs =
      { localIn := st.localIn.drop (routedLoc cfg evs)
        remoteIn := st.remoteIn.drop (routedRem cfg evs)
        localOut := st.localOut ++
          ((readChunks st.remoteIn (routedRem cfg evs)).map cfg.localConv).flatten
        remoteOut := st.remoteOut ++
          ((readChunks st.localIn (routedLoc cfg evs)).map cfg.remoteConv).flatten
        localFlushes := st.localFlushes + (if cfg.localHasFlush then routedRem cfg evs else 0)
        remoteFlushes := st.remoteFlushes + (if cfg.remoteHasFlush then routedLoc cfg evs else 0)
        terminated := false } := by
  induction evs generalizing st with
  | nil =>
      cases st
      simp only [handleWakeup, List.foldl_nil, routedLoc, routedRem, List.filter_nil,
        List.length_nil, readChunks, List.map_nil, List.flatten_nil, List.append_nil,
        List.drop_zero]
      simp_all
  | cons e evs ih =>
      have he := hfree e (by simp)
      have hfree2 : ∀ x ∈ evs, x.2 &&& HUPERR = 0 := fun x hx => hfree x (by simp [hx])
      rw [handleWakeup_cons]
      by_cases hin : e.2 &&& POLLIN = 0
      · have hev : handleEvent cfg st e = st := by
          unfold handleEvent
          simp [hterm, he, hin]
        rw [hev, ih st hterm hfree2,
          routedLoc_cons_skip cfg e evs (Or.inr hin),
          routedRem_cons_skip cfg e evs (Or.inr hin)]
      · by_cases h1 : e.1 = cfg.remoteFd
        · have hev : handleEvent cfg st e =
              writeLocal cfg { st with remoteIn := (readOne st.remoteIn).2 }
                (readOne st.remoteIn).1 := by
            unfold handleEvent lookupReader
            simp [hterm, he, hin, h1]
          have hterm2 : (writeLocal cfg { st with remoteIn := (readOne st.remoteIn).2 }
              (readOne st.remoteIn).1).terminated = false := by
            simp [writeLocal, hterm]
          have hnl : ¬e.1 = cfg.localFd := by
            rw [h1]
            exact fun hc => hdisj hc.symm
          rw [hev, ih _ hterm2 hfree2,
            routedLoc_cons_skip cfg e evs (Or.inl hnl),
            routedRem_cons_hit cfg e evs h1 hin]
          simp only [writeLocal, readChunks_succ, readOne_snd, List.map_cons,
            List.flatten_cons, List.drop_drop, List.append_assoc, flush_add]
          rw [Nat.add_comm 1 (routedRem cfg evs)]
        · by_cases h2 : e.1 = cfg.localFd
          · have hev : handleEvent cfg st e =
                writeRemote cfg { st with localIn := (readOne st.localIn).2 }
                  (readOne st.localIn).1 := by
              unfold handleEvent lookupReader
              simp [hterm, he, hin, h1, h2, hdisj]
            have hterm2 : (writeRemote cfg { st with localIn := (readOne st.localIn).2 }
                (readOne st.localIn).1).terminated = false := by
              simp [writeRemote, hterm]
            rw [hev, ih _ hterm2 hfree2,
              routedRem_cons_skip cfg e evs (Or.inl h1),
              routedLoc_cons_hit cfg e evs h2 hin]
            simp only [writeRemote, readChunks_succ, readOne_snd, List.map_cons,
              List.flatten_cons, List.drop_drop, List.append_assoc, flush_add]
            rw [Nat.add_comm 1 (routedLoc cfg evs)]
          · have hev : handleEvent cfg st e = st := by
              unfold handleEvent lookupReader
              simp [hterm, he, hin, h1, h2]
            rw [hev, ih st hterm hfree2,
              routedLoc_cons_skip cfg e evs (Or.inl h2),
              routedRem_cons_skip cfg e evs (Or.inl h1)]

theorem sessionRun_eq_flatten (cfg : RelayConfig) (st : RelayState)
    (ws : List (List (Nat × Nat))) :
    sessionRun cfg st ws = handleWakeup cfg st ws.flatten := by
  induction ws generalizing st with
  | nil => rfl
  | cons w ws ih =>
      rw [sessionRun_cons, ih, List.flatten_cons, handleWakeup_append]

/-- C4: once a poll wakeup reports an event whose status carries a hang-up,
error, or invalid-handle bit, and no earlier event of that wakeup did, the
`session` loop returns at that event: the final state is exactly the state
reached after the earlier events of the wakeup, with the session terminated —
the remaining events of the wakeup and all later wakeups are never processed,
so no further bytes are relayed in either direction. -/
theorem session_stops_on_closure (cfg : RelayConfig) (st : RelayState)
    (evs1 evs2 : List (Nat × Nat)) (ev : Nat × Nat)
    (wakeups : List (List (Nat × Nat)))
    (hterm : st.terminated = false)
    (hev : ev.2 &&& HUPERR ≠ 0)
    (hfree : ∀ e ∈ evs1, e.2 &&& HUPERR = 0) :
    sessionRun cfg st ((evs1 ++ ev :: evs2) :: wakeups) =
      { handleWakeup cfg st evs1 with terminated := true } := by
  have hst1 : (handleWakeup cfg st evs1).terminated = false :=
    handleWakeup_keeps_running cfg evs1 st hterm hfree
  have hev1 : handleEvent cfg (handleWakeup cfg st evs1) ev =
      { handleWakeup cfg st evs1 with terminated := true } := by
    unfold handleEvent
    simp [hst1, hev]
  rw [sessionRun_cons, handleWakeup_append, handleWakeup_cons, hev1,
    handleWakeup_terminated _ _ _ rfl, sessionRun_terminated _ _ _ rfl]

/-- C4 witness: a hang-up on the socket after one byte of standard input has
been relayed ends the session there; the trailing event and the later wakeup
are ignored. -/
theorem session_stops_on_closure_witness :
    sessionRun consoleConfig consoleScenarioState
        (([(0, POLLIN)] ++ (4, POLLHUP) :: [(0, POLLIN)]) :: [[(0, POLLIN)]]) =
      { handleWakeup consoleConfig consoleScenarioState [(0, POLLIN)] with
        terminated := true } :=
  session_stops_on_closure consoleConfig consoleScenarioState [(0, POLLIN)]
    [(0, POLLIN)] (4, POLLHUP) [[(0, POLLIN)]] (by decide) (by decide) (by decide)

/-- C5: with disjoint reader descriptors, over any interleaving of
hang-up-free readiness events, the bytes appended to the remote output are
exactly the single-byte reads drawn from the local reader (converted by the
remote channel's converter), and the bytes appended to the local output are
exactly the reads drawn from the remote reader — no byte is ever routed to
the other writer. -/
theorem no_misrouting (cfg : RelayConfig) (st : RelayState)
    (wakeups : List (List (Nat × Nat)))
    (hdisj : cfg.localFd ≠ cfg.remoteFd) (hterm : st.terminated = false)
    (hfree : ∀ e ∈ wakeups.flatten, e.2 &&& HUPERR = 0) :
    sessionRun cfg st wakeups =
      { localIn := st.localIn.drop (routedLoc cfg wakeups.flatten)
        remoteIn := st.remoteIn.drop (routedRem cfg wakeups.flatten)
        localOut := st.localOut ++
          ((readChunks st.remoteIn (routedRem cfg wakeups.flatten)).map cfg.localConv).flatten
        remoteOut := st.remoteOut ++
          ((readChunks st.localIn (routedLoc cfg wakeups.flatten)).map cfg.remoteConv).flatten
        localFlushes := st.localFlushes +
          (if cfg.localHasFlush then routedRem cfg wakeups.flatten else 0)
        remoteFlushes := st.remoteFlushes +
          (if cfg.remoteHasFlush then routedLoc cfg wakeups.flatten else 0)
        terminated := false } := by
  rw [sessionRun_eq_flatten]
  exact wakeup_routing cfg wakeups.flatten st hdisj hterm hfree

/-- C5 witness: the console scenario trace, fully evaluated. -/
theorem no_misrouting_witness :
    sessionRun consoleConfig consoleScenarioState [consoleScenarioEvents] =
      { localIn := consoleScenarioState.localIn.drop
          (routedLoc consoleConfig [consoleScenarioEvents].flatten)
        remoteIn := consoleScenarioState.remoteIn.drop
          (routedRem consoleConfig [consoleScenarioEvents].flatten)
        localOut := consoleScenarioState.localOut ++
          ((readChunks consoleScenarioState.remoteIn
            (routedRem consoleConfig [consoleScenarioEvents].flatten)).map
              consoleConfig.localConv).flatten
        remoteOut := consoleScenarioState.remoteOut ++
          ((readChunks consoleScenarioState.localIn
            (routedLoc consoleConfig [consoleScenarioEvents].flatten)).map
              consoleConfig.remoteConv).flatten
        localFlushes := consoleScenarioState.localFlushes +
          (if consoleConfig.localHasFlush
            then routedRem consoleConfig [consoleScenarioEvents].flatten else 0)
        remoteFlushes := consoleScenarioState.remoteFlushes +
          (if consoleConfig.remoteHasFlush
            then routedLoc consoleConfig [consoleScenarioEvents].flatten else 0)
        terminated := false } :=
  no_misrouting consoleConfig consoleScenarioState [consoleScenarioEvents]
    (by decide) (by decide) (by decide)

/-- C6: a read-readiness event whose status carries no hang-up/error/invalid
bit does not end the session even when the single-byte read returns zero
bytes (the reader is drained): the state is unchanged except that the paired
writer is flushed with no payload appended; and no hang-up-free event
sequence ever sets the terminated flag. -/
theorem zero_read_no_termination (cfg : RelayConfig) (st : RelayState) (status : Nat)
    (hterm : st.terminated = false)
    (hdisj : cfg.localFd ≠ cfg.remoteFd)
    (hhup : status &&& HUPERR = 0)
    (hin : status &&& POLLIN ≠ 0)
    (hempty : st.localIn = [])
    (hconv : cfg.remoteConv [] = []) :
    handleEvent cfg st (cfg.localFd, status) =
      { st with remoteFlushes :=
          if cfg.remoteHasFlush then st.remoteFlushes + 1 else st.remoteFlushes } ∧
    ∀ evs : List (Nat × Nat), (∀ e ∈ evs, e.2 &&& HUPERR = 0) →
      (handleWakeup cfg st evs).terminated = false := by
  constructor
  · unfold handleEvent lookupReader
    simp [hterm, hhup, hin, hdisj, hempty, writeRemote, readOne, hconv]
  · exact fun evs hfree => handleWakeup_keeps_running cfg evs st hterm hfree

/-- C6 witness: the console configuration with the socket reader drained. -/
theorem zero_read_no_termination_witness :
    handleEvent consoleConfig emptyLocalState (consoleConfig.localFd, 1) =
      { emptyLocalState with remoteFlushes :=
          if consoleConfig.remoteHasFlush
            then emptyLocalState.remoteFlushes + 1 else emptyLocalState.remoteFlushes } ∧
    (handleWakeup consoleConfig emptyLocalState [(0, 1)]).terminated = false :=
  ⟨(zero_read_no_termination consoleConfig emptyLocalState 1 (by decide) (by decide)
      (by decide) (by decide) (by decide) (by decide)).1,
   (zero_read_no_termination consoleConfig emptyLocalState 1 (by decide) (by decide)
      (by decide) (by decide) (by decide) (by decide)).2 [(0, 1)] (by decide)⟩

/-- C9: on a pure read-readiness event the relayed byte is converted by the
converter stored on the destination (writing) channel — never the source's —
and the destination output is flushed exactly when it supports flushing: an
event on the local reader appends `remoteConv` of the byte to the remote
output, and an event on the remote reader appends `localConv` of the byte to
the local output. -/
theorem converter_from_destination (cfg : RelayConfig) (st : RelayState)
    (fd status : Nat)
    (hterm : st.terminated = false)
    (hdisj : cfg.localFd ≠ cfg.remoteFd)
    (hhup : status &&& HUPERR = 0)
    (hin : status &&& POLLIN ≠ 0) :
    (fd = cfg.localFd →
      handleEvent cfg st (fd, status) =
        { st with
          localIn := st.localIn.drop 1
          remoteOut := st.remoteOut ++ cfg.remoteConv (st.localIn.take 1)
          remoteFlushes :=
            if cfg.remoteHasFlush then st.remoteFlushes + 1 else st.remoteFlushes }) ∧
    (fd = cfg.remoteFd →
      handleEvent cfg st (fd, status) =
        { st with
          remoteIn := st.remoteIn.drop 1
          localOut := st.localOut ++ cfg.localConv (st.remoteIn.take 1)
          localFlushes :=
            if cfg.localHasFlush then st.localFlushes + 1 else st.localFlushes }) := by
  constructor
  · intro hfd
    subst hfd
    unfold handleEvent lookupReader
    simp [hterm, hhup, hin, hdisj, writeRemote, readOne_fst, readOne_snd]
  · intro hfd
    subst hfd
    unfold handleEvent lookupReader
    simp [hterm, hhup, hin, writeLocal, readOne_fst, readOne_snd]

/-- C9 witness: one byte of the console scenario moved from the socket to
standard output. -/
theorem converter_from_destination_witness :
    handleEvent consoleConfig consoleScenarioState (4, 1) =
      { consoleScenarioState with
        localIn := consoleScenarioState.localIn.drop 1
        remoteOut := consoleScenarioState.remoteOut ++
          consoleConfig.remoteConv (consoleScenarioState.localIn.take 1)
        remoteFlushes :=
          if consoleConfig.remoteHasFlush
            then consoleScenarioState.remoteFlushes + 1
            else consoleScenarioState.remoteFlushes } :=
  (converter_from_destination consoleConfig consoleScenarioState 4 1 (by decide)
    (by decide) (by decide) (by decide)).1 (by decide)

/-- C3 counterexample: running the console configuration on the spec's
scenario trace contradicts the claim — the bytes `"AT\r\n"` read from the
remote side (standard input) are written to the local side (the socket) as
`"AT\r"` (bytes 65, 84, 13), not `"AT\n"` (bytes 65, 84, 10), and the bytes
`"OK\n"` read from the local side reach the remote side (standard output) as
`"OK"` (bytes 79, 75), not `"OK\r"` (bytes 79, 75, 13). -/
theorem console_scenario_fails :
    (sessionRun consoleConfig consoleScenarioState
      [consoleScenarioEvents]).localOut ≠ [65, 84, 10] ∧
    (sessionRun consoleConfig consoleScenarioState
      [consoleScenarioEvents]).remoteOut ≠ [79, 75, 13] := by
  decide

/-- C3 (amended): in console mode, bytes arriving from the remote side
(standard input) pass through `toCarriageReturn` (`lf_to_cr`, the converter
of the local channel), so `"AT\r\n"` is written to the local side (the
accepted socket) as `"AT\r"`; and bytes arriving from the local side pass
through `toLineFeed` (`cr_to_lf`), so `"OK\n"` is written to the remote side
(standard output) as `"OK"`. -/
theorem console_scenario_amended :
    (sessionRun consoleConfig consoleScenarioState
        [consoleScenarioEvents]).localOut = [65, 84, 13] ∧
    (sessionRun consoleConfig consoleScenarioState
        [consoleScenarioEvents]).remoteOut = [79, 75] ∧
    lf_to_cr [65, 84, 13, 10] = [65, 84, 13] ∧
    cr_to_lf [79, 75, 10] = [79, 75] := by
  decide

end IORelay
